import Mathlib

/-!
Verification development for the HVAC invoicing application
(`src/App.tsx`, together with the entity interfaces of the repository's
type declarations).  The definitions below are a shallow embedding of
the program's domain model and of the handlers holding its derived-state
computation: the invoice save handler (`handleSubmit` of `InvoiceForm`),
the collection update (`handleSaveInvoice` of `InvoicesPage`), the
dashboard aggregation (`upcomingMaintenance` and `monthlyData` of
`DashboardPage`), the service costing (`handleSubmit` and
`handleItemQuantityChange` of `ServiceForm`) and the service picker
(`handleAddService` of `InvoiceForm`).

Modelling conventions:
* JavaScript numbers are modelled as rationals (`Rat`).
* JavaScript strings are Lean strings; `String.prototype.includes` is
  modelled by an executable substring test on the character lists.
* The JavaScript `Date` object is modelled on ISO `YYYY-MM-DD` strings,
  with the session clock assumed to be UTC (the code never manipulates
  time zones).  `setMonth` normalisation (day-of-month overflow rolling
  into the following month) follows the ECMAScript `MakeDay` semantics;
  `toISOString` is modelled for years up to 9999, where it prints the
  plain four-digit form.
* A handler that can abandon a save (unresolved client reference, or the
  `RangeError` thrown by `toISOString` on an invalid date) returns an
  `Option`, where `none` means `onSave` is never invoked.
-/

/-! ### JavaScript string primitives -/

/-- One character list begins with another. -/
def listStartsWith : List Char → List Char → Bool
  | _, [] => true
  | [], _ :: _ => false
  | a :: hay, b :: pat => a == b && listStartsWith hay pat

/-- Substring occurrence test on character lists. -/
def containsSub : List Char → List Char → Bool
  | [], pat => listStartsWith [] pat
  | a :: hay, pat => listStartsWith (a :: hay) pat || containsSub hay pat

/-- Model of `String.prototype.includes`. -/
def jsIncludes (s pat : String) : Bool :=
  containsSub s.toList pat.toList

/-- Model of `String.prototype.padStart(n, c)`. -/
def jsPadStart (s : String) (n : Nat) (c : Char) : String :=
  String.mk (List.replicate (n - s.length) c) ++ s

/-- Model of `String.prototype.toLowerCase` (the code only searches for a
plain ASCII pattern). -/
def jsToLower (s : String) : String := String.mk (s.data.map Char.toLower)

/-- Decimal digit character. -/
def digitChar (n : Nat) : Char := Char.ofNat (48 + n % 10)

/-- Decimal digits of a natural number, most significant first; the fuel
argument bounds the recursion and is chosen large enough at the call
site. -/
def natDigitsAux (fuel n : Nat) : List Char :=
  match fuel with
  | 0 => []
  | fuel + 1 => if n < 10 then [digitChar n] else natDigitsAux fuel (n / 10) ++ [digitChar n]

/-- Model of `Number.prototype.toString` on a natural number. -/
def natToString (n : Nat) : String := String.mk (natDigitsAux (n + 1) n)

/-! ### JavaScript date primitives -/

/-- A calendar date: year, 1-based month, day of month. -/
structure YMD where
  year : Nat
  month : Nat
  day : Nat
deriving DecidableEq

def isLeapYear (y : Nat) : Bool :=
  (y % 4 == 0 && y % 100 != 0) || y % 400 == 0

def daysInMonth (y m : Nat) : Nat :=
  if m == 2 then (if isLeapYear y then 29 else 28)
  else if m == 4 || m == 6 || m == 9 || m == 11 then 30
  else 31

/-- Digits-to-number helper for the date reader. -/
def digitsToNat (l : List Char) : Nat :=
  l.foldl (fun n c => 10 * n + (c.toNat - 48)) 0

/-- Model of `new Date(s)` for a string in the ECMAScript date-time
string format `YYYY-MM-DD` (interpreted as UTC midnight); `none` is the
invalid date. -/
def parseISODate (s : String) : Option YMD :=
  match s.toList with
  | [y1, y2, y3, y4, h1, m1, m2, h2, d1, d2] =>
    if h1 == '-' && h2 == '-' && [y1, y2, y3, y4, m1, m2, d1, d2].all Char.isDigit then
      let y := digitsToNat [y1, y2, y3, y4]
      let m := digitsToNat [m1, m2]
      let d := digitsToNat [d1, d2]
      if 1 ≤ m ∧ m ≤ 12 ∧ 1 ≤ d ∧ d ≤ daysInMonth y m then some ⟨y, m, d⟩ else none
    else none
  | _ => none

/-- Model of `d.setMonth(d.getMonth() + k)`: add `k` to the month field
and normalise following the ECMAScript `MakeDay` semantics.  For a valid
input date the day-of-month overflow is at most three days, so it rolls
into the immediately following month. -/
def addMonths (d : YMD) (k : Nat) : YMD :=
  let t := (d.month - 1) + k
  let y := d.year + t / 12
  let m := t % 12 + 1
  if d.day ≤ daysInMonth y m then ⟨y, m, d.day⟩
  else if m == 12 then ⟨y + 1, 1, d.day - daysInMonth y m⟩
  else ⟨y, m + 1, d.day - daysInMonth y m⟩

def pad2 (n : Nat) : String := String.mk [digitChar (n / 10), digitChar n]

def pad4 (n : Nat) : String :=
  String.mk [digitChar (n / 1000), digitChar (n / 100), digitChar (n / 10), digitChar n]

/-- Model of `d.toISOString().split('T')[0]` (years up to 9999). -/
def formatISODate (d : YMD) : String :=
  pad4 d.year ++ "-" ++ pad2 d.month ++ "-" ++ pad2 d.day

/-- Days since 1970-01-01 of a proleptic Gregorian date: the day count
underlying the ECMAScript time value. -/
def toEpochDay (d : YMD) : Int :=
  let yi : Int := (d.year : Int) - (if d.month ≤ 2 then 1 else 0)
  let era : Int := (if 0 ≤ yi then yi else yi - 399) / 400
  let yoe : Int := yi - era * 400
  let mp : Int := ((d.month : Int) + 9) % 12
  let doy : Int := (153 * mp + 2) / 5 + (d.day : Int) - 1
  let doe : Int := yoe * 365 + yoe / 4 - yoe / 100 + doy
  era * 146097 + doe - 719468

def msPerDay : Int := 24 * 60 * 60 * 1000

/-- Model of `new Date(s).getTime()` for a stored ISO date string. -/
def dateStringMs (s : String) : Option Int :=
  (parseISODate s).map (fun d => msPerDay * toEpochDay d)

/-! ### Domain model (the entity interfaces of the repository) -/

inductive ClientType where
  | Residencial
  | Comercial
deriving DecidableEq

structure Client where
  id : String
  name : String
  address : String
  phone : String
  email : String
  createdAt : String
  type : ClientType
deriving DecidableEq

structure InvoiceItem where
  id : String
  description : String
  quantity : Rat
  unitPrice : Rat
  isMaintenance : Option Bool
  isNewEquipment : Option Bool
deriving DecidableEq

inductive InvoiceStatus where
  | Borrador
  | Enviada
  | Pagada
  | Vencida
deriving DecidableEq

structure Invoice where
  id : String
  clientId : String
  invoiceNumber : String
  issueDate : String
  dueDate : String
  items : List InvoiceItem
  notes : Option String
  status : InvoiceStatus
  lastMaintenanceDate : Option String
  nextMaintenanceDate : Option String
deriving DecidableEq

structure InventoryItem where
  id : String
  name : String
  description : String
  quantity : Rat
  unitPrice : Rat
deriving DecidableEq

inductive ExpenseCategory where
  | Materiales
  | Combustible
  | Herramientas
  | Marketing
  | Otro
deriving DecidableEq

structure Expense where
  id : String
  description : String
  amount : Rat
  date : String
  category : ExpenseCategory
deriving DecidableEq

structure ServiceItem where
  inventoryItemId : String
  quantity : Rat
deriving DecidableEq

structure Service where
  id : String
  name : String
  description : String
  items : List ServiceItem
  laborCost : Rat
  totalPrice : Rat
deriving DecidableEq

/-- JavaScript truthiness of an optional boolean field (an absent field
is falsy). -/
def truthy : Option Bool → Bool
  | some b => b
  | none => false

/-! ### Invoice derivation (`InvoiceForm.handleSubmit`, lines 851-887) -/

/-- The invoice form state, `Omit` of `Invoice` without `id` and
`invoiceNumber`. -/
structure InvoiceFormData where
  clientId : String
  issueDate : String
  dueDate : String
  items : List InvoiceItem
  notes : Option String
  status : InvoiceStatus
  lastMaintenanceDate : Option String
  nextMaintenanceDate : Option String
deriving DecidableEq

/-- Initial form state of a new invoice (lines 798-807); `newItemId`,
`today` and `dueDate` stand for the generated id and the two computed
date strings. -/
def initialInvoiceFormData (newItemId today dueDate : String) : InvoiceFormData :=
  { clientId := ""
  , issueDate := today
  , dueDate := dueDate
  , items := [{ id := newItemId, description := "", quantity := 1, unitPrice := 0
              , isMaintenance := some false, isNewEquipment := some false }]
  , notes := some ""
  , status := InvoiceStatus.Borrador
  , lastMaintenanceDate := none
  , nextMaintenanceDate := none }

/-- The fixed warranty sentence (`warrantyText`, line 872). -/
def warrantyText : String :=
  "Garantía de un año. La garantía solo cubre daños por naturaleza del equipo, no provocados por cortocircuitos."

/-- The fixed maintenance recommendation (`maintenanceText`, lines
878-879): the embedded interval is 3 months for a `Comercial` client and
6 months otherwise. -/
def maintenanceText (client : Client) : String :=
  let maintenanceMonths : Nat := if client.type = ClientType.Comercial then 3 else 6
  "Recomendación: Realizar el primer mantenimiento preventivo en "
    ++ natToString maintenanceMonths
    ++ " meses para asegurar el óptimo funcionamiento y la validez de la garantía."

/-- The note injection steps of `handleSubmit` (lines 871-885). -/
def deriveNotes (client : Client) (hasNewEquipment : Bool) (notes0 : String) : String :=
  let notes1 :=
    if hasNewEquipment && !(jsIncludes notes0 warrantyText) then
      (if notes0 ≠ "" then notes0 ++ "\n\n" ++ warrantyText else warrantyText)
    else notes0
  if hasNewEquipment then
    (if !(jsIncludes notes1 (maintenanceText client)) then
      (if notes1 ≠ "" then notes1 ++ "\n\n" ++ maintenanceText client else maintenanceText client)
    else notes1)
  else notes1

/-- The maintenance scheduling step of `handleSubmit` (lines 862-869):
the result is the value stored in `nextMaintenanceDate`, and `none`
means `toISOString` threw on an invalid issue date, so the save never
happens. -/
def deriveNextMaintenance (hasMaintenance : Bool) (issueDate : String) : Option (Option String) :=
  if hasMaintenance then
    match parseISODate issueDate with
    | some d => some (some (formatISODate (addMonths d 6)))
    | none => none
  else some none

/-- `handleSubmit` of `InvoiceForm` (lines 851-887): validates the client
reference, derives the next maintenance date and the injected notes and
hands the result to `onSave`; `none` means the save was aborted. -/
def invoiceFormSubmit (clients : List Client) (invoice : Option Invoice)
    (formData : InvoiceFormData) : Option Invoice :=
  match clients.find? (fun c => c.id == formData.clientId) with
  | none => none
  | some client =>
    match deriveNextMaintenance (formData.items.any fun item => truthy item.isMaintenance)
        formData.issueDate with
    | none => none
    | some nextM =>
      let notes := deriveNotes client (formData.items.any fun item => truthy item.isNewEquipment)
        ((formData.notes).getD "")
      some { id := (invoice.map fun i => i.id).getD ""
           , clientId := formData.clientId
           , invoiceNumber := (invoice.map fun i => i.invoiceNumber).getD ""
           , issueDate := formData.issueDate
           , dueDate := formData.dueDate
           , items := formData.items
           , notes := some notes
           , status := formData.status
           , lastMaintenanceDate := formData.lastMaintenanceDate
           , nextMaintenanceDate := nextM }

/-- `handleSaveInvoice` of `InvoicesPage` (lines 723-731); `newId` stands
for the `generateId()` call. -/
def handleSaveInvoice (selectedInvoice : Option Invoice) (invoices : List Invoice)
    (newId : String) (invoice : Invoice) : List Invoice :=
  match selectedInvoice with
  | some _ => invoices.map fun i => if i.id == invoice.id then invoice else i
  | none =>
    let newInvoiceNumber := "INV-" ++ jsPadStart (natToString (invoices.length + 1)) 4 '0'
    invoices ++ [{ invoice with id := newId, invoiceNumber := newInvoiceNumber }]

/-- The complete save interaction: the form handler runs and, only when
it reaches `onSave`, the collection is updated. -/
def saveInvoiceFlow (clients : List Client) (invoices : List Invoice)
    (selectedInvoice : Option Invoice) (newId : String) (formData : InvoiceFormData) : List Invoice :=
  match invoiceFormSubmit clients selectedInvoice formData with
  | none => invoices
  | some inv => handleSaveInvoice selectedInvoice invoices newId inv

/-- `subtotal` of `InvoiceForm` (line 889). -/
def subtotal (items : List InvoiceItem) : Rat :=
  items.foldl (fun sum item => sum + item.quantity * item.unitPrice) 0

/-- `total` of `InvoicePreview` (line 997). -/
def previewTotal (invoice : Invoice) : Rat :=
  invoice.items.foldl (fun sum item => sum + item.quantity * item.unitPrice) 0

/-- `handleAddService` of `InvoiceForm` (lines 833-844); `newId` stands
for `generateId()`, and `String.toLower` models `toLowerCase` (the
searched pattern is plain ASCII). -/
def handleAddService (newId : String) (formData : InvoiceFormData) (service : Service) :
    InvoiceFormData :=
  let newItem : InvoiceItem :=
    { id := newId
    , description := service.name
    , quantity := 1
    , unitPrice := service.totalPrice
    , isMaintenance := some (jsIncludes (jsToLower service.name) "mantenimiento")
    , isNewEquipment := some false }
  { formData with items := formData.items ++ [newItem] }

/-! ### Dashboard aggregation (`DashboardPage`, lines 209-243) -/

/-- The month/year test on a stored date string: `getMonth()` and
`getFullYear()` of the parsed date against the reference month and year
(an invalid date satisfies neither comparison). -/
def inMonth (nowYear nowMonth : Nat) (s : String) : Bool :=
  match parseISODate s with
  | some d => decide (d.month = nowMonth) && decide (d.year = nowYear)
  | none => false

/-- `monthlyData.income` of `DashboardPage` (lines 225-231). -/
def monthlyIncome (nowYear nowMonth : Nat) (invoices : List Invoice) : Rat :=
  ((invoices.filter fun inv => decide (inv.status = InvoiceStatus.Pagada)).filter
      fun inv => inMonth nowYear nowMonth inv.issueDate).foldl
    (fun sum inv =>
      sum + inv.items.foldl (fun itemSum item => itemSum + item.quantity * item.unitPrice) 0) 0

/-- `monthlyData.totalExpenses` of `DashboardPage` (lines 233-238). -/
def monthlyExpenses (nowYear nowMonth : Nat) (expenses : List Expense) : Rat :=
  (expenses.filter fun e => inMonth nowYear nowMonth e.date).foldl
    (fun sum e => sum + e.amount) 0

/-- `monthlyProfit` of `DashboardPage` (line 243). -/
def monthlyProfit (nowYear nowMonth : Nat) (invoices : List Invoice)
    (expenses : List Expense) : Rat :=
  monthlyIncome nowYear nowMonth invoices - monthlyExpenses nowYear nowMonth expenses

def fifteenDaysMs : Int := 15 * 24 * 60 * 60 * 1000

/-- The window test of `upcomingMaintenance` (line 214): the stored next
maintenance date exists and its time value lies in `[now, now + 15 days]`
(a missing or unreadable date fails both comparisons). -/
def maintenanceDue (nowMs : Int) (inv : Invoice) : Bool :=
  match inv.nextMaintenanceDate with
  | none => false
  | some s =>
    match dateStringMs s with
    | some t => decide (t ≤ nowMs + fifteenDaysMs) && decide (nowMs ≤ t)
    | none => false

/-- The de-duplicating reduce of `upcomingMaintenance` (line 217). -/
def dedupById (l : List Client) : List Client :=
  l.foldl
    (fun unique item =>
      if ((unique.find? fun u => u.id == item.id)).isSome then unique else unique ++ [item]) []

/-- The invoice-window filter and client resolution of
`upcomingMaintenance` (lines 213-216); the source's `map` over
`clients.find` followed by the truthiness filter is this `filterMap`. -/
def qualifyingClients (nowMs : Int) (clients : List Client) (invoices : List Invoice) :
    List Client :=
  (invoices.filter (maintenanceDue nowMs)).filterMap
    fun inv => clients.find? fun c => c.id == inv.clientId

/-- `upcomingMaintenance` of `DashboardPage` (lines 210-218). -/
def upcomingMaintenance (nowMs : Int) (clients : List Client) (invoices : List Invoice) :
    List Client :=
  dedupById (qualifyingClients nowMs clients invoices)

/-! ### Service costing (`ServiceForm`, lines 520-553) -/

/-- Contribution of one bill-of-materials line inside
`ServiceForm.handleSubmit` (lines 542-545): an unresolved inventory
reference contributes zero. -/
def serviceItemCost (inventory : List InventoryItem) (serviceItem : ServiceItem) : Rat :=
  match inventory.find? (fun i => i.id == serviceItem.inventoryItemId) with
  | some inventoryItem => inventoryItem.unitPrice * serviceItem.quantity
  | none => 0

/-- `materialsCost` of `ServiceForm.handleSubmit` (lines 542-545). -/
def materialsCost (inventory : List InventoryItem) (items : List ServiceItem) : Rat :=
  items.foldl (fun total serviceItem => total + serviceItemCost inventory serviceItem) 0

/-- The service form state. -/
structure ServiceFormData where
  name : String
  description : String
  items : List ServiceItem
  laborCost : Rat
  totalPrice : Rat
deriving DecidableEq

/-- `handleSubmit` of `ServiceForm` (lines 540-548). -/
def serviceFormSubmit (inventory : List InventoryItem) (service : Option Service)
    (formData : ServiceFormData) : Service :=
  let mc := materialsCost inventory formData.items
  { id := (service.map fun s => s.id).getD ""
  , name := formData.name
  , description := formData.description
  , items := formData.items
  , laborCost := formData.laborCost
  , totalPrice := mc + formData.laborCost }

/-- `handleItemQuantityChange` of `ServiceForm` (lines 523-538). -/
def handleItemQuantityChange (items : List ServiceItem) (itemId : String) (quantity : Rat) :
    List ServiceItem :=
  match items.find? (fun i => i.inventoryItemId == itemId) with
  | some _ =>
    if 0 < quantity then
      items.map fun i => if i.inventoryItemId == itemId then { i with quantity := quantity } else i
    else
      items.filter fun i => !(i.inventoryItemId == itemId)
  | none =>
    if 0 < quantity then items ++ [{ inventoryItemId := itemId, quantity := quantity }]
    else items

/-- The bill-of-materials shape maintained by the quantity editor: no
stored zero quantity, at most one line per inventory item. -/
def bomInvariant (items : List ServiceItem) : Prop :=
  (∀ i ∈ items, i.quantity ≠ 0) ∧ (items.map fun i => i.inventoryItemId).Nodup

/-! ### Proof-device reformulations -/

/-- The two note-injection steps share this append-once-unless-contained
pattern; `deriveNotes` with the flag set is proved equal to two of these
steps. -/
def appendNoteOnce (notes text : String) : String :=
  if !(jsIncludes notes text) then
    (if notes ≠ "" then notes ++ "\n\n" ++ text else text)
  else notes

/-- Structural-recursion reformulation of the de-duplicating reduce,
threading the set of already seen client ids. -/
def dedupAux (seen : List String) : List Client → List Client
  | [] => []
  | c :: rest =>
    if c.id ∈ seen then dedupAux seen rest
    else c :: dedupAux (seen ++ [c.id]) rest

/-! ### Concrete sample data (used by the closed instance theorems) -/

def demoClient : Client :=
  { id := "c1", name := "Acme Frío SRL", address := "", phone := "", email := ""
  , createdAt := "", type := ClientType.Comercial }

def demoItem100 : InvoiceItem :=
  { id := "i1", description := "Instalación", quantity := 1, unitPrice := 100
  , isMaintenance := some false, isNewEquipment := some false }

def demoItem50 : InvoiceItem :=
  { id := "i2", description := "Revisión", quantity := 1, unitPrice := 50
  , isMaintenance := some false, isNewEquipment := some false }

def demoPaidInvoice : Invoice :=
  { id := "inv1", clientId := "c1", invoiceNumber := "INV-0001"
  , issueDate := "2024-06-05", dueDate := "2024-07-05", items := [demoItem100]
  , notes := none, status := InvoiceStatus.Pagada
  , lastMaintenanceDate := none, nextMaintenanceDate := none }

def demoDraftInvoice : Invoice :=
  { id := "inv2", clientId := "c1", invoiceNumber := "INV-0002"
  , issueDate := "2024-06-20", dueDate := "2024-07-20", items := [demoItem50]
  , notes := none, status := InvoiceStatus.Borrador
  , lastMaintenanceDate := none, nextMaintenanceDate := none }

def demoExpense : Expense :=
  { id := "e1", description := "Combustible", amount := 100, date := "2024-06-15"
  , category := ExpenseCategory.Combustible }

def demoMaintItem : InvoiceItem :=
  { id := "i3", description := "Mantenimiento anual", quantity := 1, unitPrice := 100
  , isMaintenance := some true, isNewEquipment := some false }

def demoMaintForm : InvoiceFormData :=
  { clientId := "c1", issueDate := "2024-08-31", dueDate := "2024-09-30"
  , items := [demoMaintItem], notes := some "", status := InvoiceStatus.Borrador
  , lastMaintenanceDate := none, nextMaintenanceDate := none }

def demoMaintSaved : Invoice :=
  { id := "", clientId := "c1", invoiceNumber := ""
  , issueDate := "2024-08-31", dueDate := "2024-09-30", items := [demoMaintItem]
  , notes := some "", status := InvoiceStatus.Borrador
  , lastMaintenanceDate := none, nextMaintenanceDate := some "2025-03-03" }

/-- An existing invoice being edited: the same field values that the
form handler reproduces, with a previously assigned id and number. -/
def demoEditOrig : Invoice :=
  { demoMaintSaved with id := "inv9", invoiceNumber := "INV-0007" }

def demoNegItem : InvoiceItem :=
  { id := "i4", description := "Ajuste", quantity := -2, unitPrice := -5
  , isMaintenance := some false, isNewEquipment := some false }

def demoNegForm : InvoiceFormData :=
  { clientId := "c1", issueDate := "2024-08-01", dueDate := "2024-08-31"
  , items := [demoNegItem], notes := some "", status := InvoiceStatus.Borrador
  , lastMaintenanceDate := none, nextMaintenanceDate := none }

def demoNegSaved : Invoice :=
  { id := "", clientId := "c1", invoiceNumber := ""
  , issueDate := "2024-08-01", dueDate := "2024-08-31", items := [demoNegItem]
  , notes := some "", status := InvoiceStatus.Borrador
  , lastMaintenanceDate := none, nextMaintenanceDate := none }

def demoNewEquipItem : InvoiceItem :=
  { id := "i5", description := "Condensador nuevo", quantity := 1, unitPrice := 800
  , isMaintenance := some false, isNewEquipment := some true }

def demoNewEquipForm : InvoiceFormData :=
  { clientId := "c1", issueDate := "2024-08-01", dueDate := "2024-08-31"
  , items := [demoNewEquipItem], notes := some "Nota", status := InvoiceStatus.Borrador
  , lastMaintenanceDate := none, nextMaintenanceDate := none }

def demoMaintInvoiceA : Invoice :=
  { id := "invA", clientId := "c1", invoiceNumber := "INV-0003"
  , issueDate := "2023-12-10", dueDate := "2024-01-10", items := [demoItem100]
  , notes := none, status := InvoiceStatus.Pagada
  , lastMaintenanceDate := none, nextMaintenanceDate := some "2024-06-10" }

def demoMaintInvoiceB : Invoice :=
  { id := "invB", clientId := "c1", invoiceNumber := "INV-0004"
  , issueDate := "2023-12-14", dueDate := "2024-01-14", items := [demoItem50]
  , notes := none, status := InvoiceStatus.Pagada
  , lastMaintenanceDate := none, nextMaintenanceDate := some "2024-06-14" }

/-- Reference instant for the window test: 2024-06-01T00:00:00Z. -/
def demoNowMs : Int := msPerDay * toEpochDay ⟨2024, 6, 1⟩

def demoInventoryA : InventoryItem :=
  { id := "a", name := "Filtro", description := "", quantity := 40, unitPrice := 10 }

def demoInventoryB : InventoryItem :=
  { id := "b", name := "Gas", description := "", quantity := 12, unitPrice := 5 }

def demoServiceForm : ServiceFormData :=
  { name := "Mantenimiento Preventivo", description := ""
  , items := [{ inventoryItemId := "a", quantity := 2 }, { inventoryItemId := "b", quantity := 1 }]
  , laborCost := 20, totalPrice := 0 }

/-! ### Auxiliary lemmas -/

theorem foldl_add_map_sum {α : Type} (f : α → Rat) (l : List α) (a : Rat) :
    l.foldl (fun s x => s + f x) a = a + (l.map f).sum := by
  induction l generalizing a with
  | nil => simp
  | cons x xs ih => simp [ih]; ring

theorem listStartsWith_iff (hay pat : List Char) :
    listStartsWith hay pat = true ↔ ∃ rest, hay = pat ++ rest := by
  induction pat generalizing hay with
  | nil => simp [listStartsWith]
  | cons b bs ih =>
    cases hay with
    | nil =>
      simp [listStartsWith]
    | cons a as =>
      simp only [listStartsWith, Bool.and_eq_true, beq_iff_eq, ih, List.cons_append,
        List.cons.injEq]
      constructor
      · rintro ⟨h1, rest, h2⟩
        exact ⟨rest, h1, h2⟩
      · rintro ⟨rest, h1, h2⟩
        exact ⟨h1, rest, h2⟩

theorem containsSub_iff (hay pat : List Char) :
    containsSub hay pat = true ↔ ∃ pre rest, hay = pre ++ pat ++ rest := by
  induction hay with
  | nil =>
    simp only [containsSub, listStartsWith_iff]
    constructor
    · rintro ⟨rest, h⟩
      exact ⟨[], rest, by simpa using h⟩
    · rintro ⟨pre, rest, h⟩
      rcases List.append_eq_nil.mp h.symm with ⟨h1, h2⟩
      rcases List.append_eq_nil.mp h1 with ⟨h3, h4⟩
      exact ⟨[], by simp [h3, h4, h2]⟩
  | cons a as ih =>
    simp only [containsSub, Bool.or_eq_true, listStartsWith_iff, ih]
    constructor
    · rintro (⟨rest, h⟩ | ⟨pre, rest, h⟩)
      · exact ⟨[], rest, by simp [h]⟩
      · exact ⟨a :: pre, rest, by simp [h]⟩
    · rintro ⟨pre, rest, h⟩
      cases pre with
      | nil => exact Or.inl ⟨rest, by simpa using h⟩
      | cons p ps =>
        simp only [List.cons_append, List.cons.injEq] at h
        exact Or.inr ⟨ps, rest, h.2⟩

theorem string_toList_append (s t : String) : (s ++ t).toList = s.toList ++ t.toList := by
  cases s; cases t; rfl

theorem jsIncludes_iff (s pat : String) :
    jsIncludes s pat = true ↔ ∃ pre rest, s.toList = pre ++ pat.toList ++ rest := by
  simp [jsIncludes, containsSub_iff]

theorem jsIncludes_refl (s : String) : jsIncludes s s = true :=
  (jsIncludes_iff s s).mpr ⟨[], [], by simp⟩

theorem string_toList_data (s : String) : s.toList = s.data := rfl

theorem jsIncludes_append_right (s t pat : String) (h : jsIncludes s pat = true) :
    jsIncludes (s ++ t) pat = true := by
  rcases (jsIncludes_iff s pat).mp h with ⟨pre, rest, hs⟩
  rw [string_toList_data] at hs
  exact (jsIncludes_iff (s ++ t) pat).mpr ⟨pre, rest ++ t.toList, by
    simp [string_toList_append, string_toList_data, hs]⟩

theorem jsIncludes_append_left (s t pat : String) (h : jsIncludes t pat = true) :
    jsIncludes (s ++ t) pat = true := by
  rcases (jsIncludes_iff t pat).mp h with ⟨pre, rest, ht⟩
  rw [string_toList_data] at ht
  exact (jsIncludes_iff (s ++ t) pat).mpr ⟨s.toList ++ pre, rest, by
    simp [string_toList_append, string_toList_data, ht]⟩

theorem jsIncludes_suffix (s pat : String) : jsIncludes (s ++ pat) pat = true :=
  jsIncludes_append_left s pat pat (jsIncludes_refl pat)

theorem jsIncludes_trans (a b c : String) (hab : jsIncludes a b = true)
    (hbc : jsIncludes b c = true) : jsIncludes a c = true := by
  rcases (jsIncludes_iff a b).mp hab with ⟨p1, r1, h1⟩
  rcases (jsIncludes_iff b c).mp hbc with ⟨p2, r2, h2⟩
  rw [string_toList_data] at h1 h2
  exact (jsIncludes_iff a c).mpr ⟨p1 ++ p2, r2 ++ r1, by
    simp [string_toList_data, h1, h2]⟩

theorem string_eq_empty_iff (s : String) : s = "" ↔ s.toList = [] := by
  rw [String.ext_iff, string_toList_data]

theorem string_append_ne_empty_right (s t : String) (h : t ≠ "") : s ++ t ≠ "" := by
  intro hc
  rw [string_eq_empty_iff, string_toList_append, List.append_eq_nil] at hc
  exact h ((string_eq_empty_iff t).mpr hc.2)

theorem string_append_ne_empty_left (s t : String) (h : s ≠ "") : s ++ t ≠ "" := by
  intro hc
  rw [string_eq_empty_iff, string_toList_append, List.append_eq_nil] at hc
  exact h ((string_eq_empty_iff s).mpr hc.1)

theorem jsIncludes_empty_ne (pat : String) (h : pat ≠ "") : jsIncludes "" pat = false := by
  cases hc : jsIncludes "" pat
  · rfl
  · rcases (jsIncludes_iff "" pat).mp hc with ⟨pre, rest, habs⟩
    have : pat.toList = [] := by
      rcases List.append_eq_nil.mp habs.symm with ⟨h1, _⟩
      exact (List.append_eq_nil.mp h1).2
    exact absurd ((string_eq_empty_iff pat).mpr this) h

theorem string_append_assoc (a b c : String) : (a ++ b) ++ c = a ++ (b ++ c) := by
  rw [String.ext_iff]
  simp [String.data_append, List.append_assoc]

theorem jsIncludes_empty_pat (s : String) : jsIncludes s "" = true :=
  (jsIncludes_iff s "").mpr ⟨[], s.toList, by simp [string_toList_data]⟩

theorem string_empty_append (s : String) : "" ++ s = s := by
  rw [String.ext_iff, String.data_append]
  rfl

theorem string_append_empty (s : String) : s ++ "" = s := by
  rw [String.ext_iff, String.data_append]
  simp [string_toList_data]

theorem warrantyText_ne_empty : warrantyText ≠ "" := by decide

theorem maintenanceText_ne_empty (client : Client) : maintenanceText client ≠ "" := by
  unfold maintenanceText
  by_cases h : client.type = ClientType.Comercial
  · simp only [h]
    decide
  · simp only [if_neg h]
    decide

theorem jsIncludes_of_empty (pat : String) (h : jsIncludes "" pat = true) : pat = "" := by
  rcases (jsIncludes_iff "" pat).mp h with ⟨pre, rest, habs⟩
  have h0 : pre ++ pat.toList ++ rest = [] := habs.symm
  rcases List.append_eq_nil.mp h0 with ⟨h1, _⟩
  rcases List.append_eq_nil.mp h1 with ⟨_, h3⟩
  exact (string_eq_empty_iff pat).mpr h3

theorem appendNoteOnce_skip (notes text : String) (h : jsIncludes notes text = true) :
    appendNoteOnce notes text = notes := by
  unfold appendNoteOnce
  simp [h]

theorem appendNoteOnce_append (notes text : String) (hnc : jsIncludes notes text = false)
    (hne : notes ≠ "") : appendNoteOnce notes text = notes ++ "\n\n" ++ text := by
  unfold appendNoteOnce
  simp [hnc, hne]

theorem appendNoteOnce_of_empty (text : String) (h : text ≠ "") :
    appendNoteOnce "" text = text := by
  have hc : jsIncludes "" text = false := by
    cases hb : jsIncludes "" text
    · rfl
    · exact absurd (jsIncludes_of_empty text hb) h
  simp [appendNoteOnce, hc]

theorem appendNoteOnce_cases (notes text : String) (h : text ≠ "") :
    appendNoteOnce notes text = notes ∧ jsIncludes notes text = true
    ∨ appendNoteOnce notes text = notes ++ "\n\n" ++ text ∧ notes ≠ ""
    ∨ appendNoteOnce notes text = text ∧ notes = "" := by
  by_cases hc : jsIncludes notes text = true
  · exact Or.inl ⟨appendNoteOnce_skip notes text hc, hc⟩
  · have hc' := Bool.eq_false_iff.mpr hc
    by_cases hn : notes = ""
    · subst hn
      exact Or.inr (Or.inr ⟨appendNoteOnce_of_empty text h, rfl⟩)
    · exact Or.inr (Or.inl ⟨appendNoteOnce_append notes text hc' hn, hn⟩)

theorem appendNoteOnce_contains (notes text : String) (h : text ≠ "") :
    jsIncludes (appendNoteOnce notes text) text = true := by
  rcases appendNoteOnce_cases notes text h with ⟨he, hc⟩ | ⟨he, _⟩ | ⟨he, _⟩
  · rw [he]
    exact hc
  · rw [he]
    exact jsIncludes_suffix (notes ++ "\n\n") text
  · rw [he]
    exact jsIncludes_refl text

theorem appendNoteOnce_ne_empty (notes text : String) (h : text ≠ "") :
    appendNoteOnce notes text ≠ "" := by
  rcases appendNoteOnce_cases notes text h with ⟨he, hc⟩ | ⟨he, hn⟩ | ⟨he, _⟩
  · rw [he]
    intro h0
    rw [h0] at hc
    exact h (jsIncludes_of_empty text hc)
  · rw [he]
    exact string_append_ne_empty_right _ _ h
  · rw [he]
    exact h

theorem appendNoteOnce_preserves (notes text extra : String) (h : text ≠ "")
    (hin : jsIncludes notes extra = true) :
    jsIncludes (appendNoteOnce notes text) extra = true := by
  rcases appendNoteOnce_cases notes text h with ⟨he, _⟩ | ⟨he, _⟩ | ⟨he, hn⟩
  · rw [he]
    exact hin
  · rw [he]
    exact jsIncludes_append_right _ _ _ (jsIncludes_append_right _ _ _ hin)
  · subst hn
    rw [he, jsIncludes_of_empty extra hin]
    exact jsIncludes_empty_pat text

theorem appendNoteOnce_extends (notes text : String) (h : text ≠ "") :
    ∃ s, appendNoteOnce notes text = notes ++ s := by
  rcases appendNoteOnce_cases notes text h with ⟨he, _⟩ | ⟨he, _⟩ | ⟨he, hn⟩
  · exact ⟨"", by rw [he, string_append_empty]⟩
  · exact ⟨"\n\n" ++ text, by rw [he, string_append_assoc]⟩
  · exact ⟨text, by rw [he, hn, string_empty_append]⟩

theorem deriveNotes_true_eq (client : Client) (n0 : String) :
    deriveNotes client true n0
      = appendNoteOnce (appendNoteOnce n0 warrantyText) (maintenanceText client) := by
  unfold deriveNotes appendNoteOnce
  simp only [Bool.true_and, if_true]

theorem deriveNotes_false_eq (client : Client) (n0 : String) :
    deriveNotes client false n0 = n0 := by
  unfold deriveNotes
  simp

theorem deriveNotes_contains_w (client : Client) (n0 : String) :
    jsIncludes (deriveNotes client true n0) warrantyText = true := by
  rw [deriveNotes_true_eq]
  exact appendNoteOnce_preserves _ _ _ (maintenanceText_ne_empty client)
    (appendNoteOnce_contains n0 warrantyText warrantyText_ne_empty)

theorem deriveNotes_contains_mt (client : Client) (n0 : String) :
    jsIncludes (deriveNotes client true n0) (maintenanceText client) = true := by
  rw [deriveNotes_true_eq]
  exact appendNoteOnce_contains _ _ (maintenanceText_ne_empty client)

theorem deriveNotes_idem (client : Client) (hasNE : Bool) (n0 : String) :
    deriveNotes client hasNE (deriveNotes client hasNE n0) = deriveNotes client hasNE n0 := by
  cases hasNE with
  | false => rw [deriveNotes_false_eq, deriveNotes_false_eq]
  | true =>
    have h1 : jsIncludes (deriveNotes client true n0) warrantyText = true :=
      deriveNotes_contains_w client n0
    have h2 : jsIncludes (deriveNotes client true n0) (maintenanceText client) = true :=
      deriveNotes_contains_mt client n0
    rw [deriveNotes_true_eq client (deriveNotes client true n0)]
    rw [appendNoteOnce_skip _ _ h1, appendNoteOnce_skip _ _ h2]

theorem deriveNotes_keeps_user_text (client : Client) (hasNE : Bool) (n0 : String) :
    ∃ s, deriveNotes client hasNE n0 = n0 ++ s := by
  cases hasNE with
  | false => exact ⟨"", by rw [deriveNotes_false_eq, string_append_empty]⟩
  | true =>
    obtain ⟨s1, hs1⟩ := appendNoteOnce_extends n0 warrantyText warrantyText_ne_empty
    obtain ⟨s2, hs2⟩ :=
      appendNoteOnce_extends (appendNoteOnce n0 warrantyText) (maintenanceText client)
        (maintenanceText_ne_empty client)
    exact ⟨s1 ++ s2, by rw [deriveNotes_true_eq, hs2, hs1, string_append_assoc]⟩

theorem deriveNotes_append_both (client : Client) (n0 : String) (hn : n0 ≠ "")
    (hw : jsIncludes n0 warrantyText = false)
    (hm : jsIncludes (n0 ++ "\n\n" ++ warrantyText) (maintenanceText client) = false) :
    deriveNotes client true n0
      = n0 ++ "\n\n" ++ warrantyText ++ "\n\n" ++ maintenanceText client := by
  rw [deriveNotes_true_eq, appendNoteOnce_append n0 warrantyText hw hn]
  exact appendNoteOnce_append _ _ hm (string_append_ne_empty_right _ _ warrantyText_ne_empty)

theorem find?_id_isSome_iff (l : List Client) (x : String) :
    ((l.find? fun u => u.id == x).isSome = true) ↔ x ∈ l.map fun u => u.id := by
  rw [List.find?_isSome]
  simp only [List.mem_map, beq_iff_eq]

theorem dedupById_eq_aux (l : List Client) : dedupById l = dedupAux [] l := by
  have key : ∀ (l : List Client) (acc : List Client),
      l.foldl
          (fun unique item =>
            if ((unique.find? fun u => u.id == item.id)).isSome then unique
            else unique ++ [item]) acc
        = acc ++ dedupAux (acc.map fun u => u.id) l := by
    intro l
    induction l with
    | nil =>
      intro acc
      simp [dedupAux]
    | cons c rest ih =>
      intro acc
      simp only [List.foldl_cons, dedupAux]
      by_cases h : c.id ∈ acc.map fun u => u.id
      · rw [if_pos ((find?_id_isSome_iff acc c.id).mpr h), if_pos h, ih]
      · rw [if_neg (fun hs => h ((find?_id_isSome_iff acc c.id).mp hs)), if_neg h, ih]
        simp [List.map_append]
  have h := key l []
  simpa [dedupById] using h

theorem dedupAux_sublist (l : List Client) : ∀ seen, (dedupAux seen l).Sublist l := by
  induction l with
  | nil =>
    intro seen
    simp [dedupAux]
  | cons c rest ih =>
    intro seen
    simp only [dedupAux]
    by_cases h : c.id ∈ seen
    · rw [if_pos h]
      exact (ih seen).cons c
    · rw [if_neg h]
      exact (ih (seen ++ [c.id])).cons₂ c

theorem dedupAux_find (l : List Client) : ∀ seen, ∀ c' ∈ dedupAux seen l,
    c'.id ∉ seen ∧ l.find? (fun c => c.id == c'.id) = some c' := by
  induction l with
  | nil =>
    intro seen c' hc'
    simp [dedupAux] at hc'
  | cons a rest ih =>
    intro seen c' hc'
    simp only [dedupAux] at hc'
    by_cases h : a.id ∈ seen
    · rw [if_pos h] at hc'
      obtain ⟨hns, hf⟩ := ih seen c' hc'
      refine ⟨hns, ?_⟩
      have hne : ¬((a.id == c'.id) = true) := by
        intro hb
        exact hns (beq_iff_eq.mp hb ▸ h)
      rw [List.find?_cons_of_neg rest hne]
      exact hf
    · rw [if_neg h] at hc'
      rcases List.mem_cons.mp hc' with heq | hmem
      · subst heq
        refine ⟨h, ?_⟩
        exact @List.find?_cons_of_pos Client (fun c => c.id == c'.id) c' rest (by simp)
      · obtain ⟨hns, hf⟩ := ih (seen ++ [a.id]) c' hmem
        refine ⟨fun hs => hns (List.mem_append.mpr (Or.inl hs)), ?_⟩
        have hne : ¬((a.id == c'.id) = true) := by
          intro hb
          exact hns (List.mem_append.mpr (Or.inr (by simp [beq_iff_eq.mp hb])))
        rw [List.find?_cons_of_neg rest hne]
        exact hf

theorem dedupAux_nodup (l : List Client) : ∀ seen, ((dedupAux seen l).map fun c => c.id).Nodup := by
  induction l with
  | nil =>
    intro seen
    simp [dedupAux]
  | cons a rest ih =>
    intro seen
    simp only [dedupAux]
    by_cases h : a.id ∈ seen
    · rw [if_pos h]
      exact ih seen
    · rw [if_neg h]
      simp only [List.map_cons, List.nodup_cons]
      refine ⟨?_, ih _⟩
      intro hmem
      rcases List.mem_map.mp hmem with ⟨c', hc', hid⟩
      have hfound := (dedupAux_find rest (seen ++ [a.id]) c' hc').1
      exact hfound (List.mem_append.mpr (Or.inr (by simp [hid])))

theorem dedupAux_cover (l : List Client) : ∀ seen, ∀ c ∈ l, c.id ∉ seen →
    ∃ c' ∈ dedupAux seen l, c'.id = c.id := by
  induction l with
  | nil =>
    intro seen c hc
    simp at hc
  | cons a rest ih =>
    intro seen c hc hns
    simp only [dedupAux]
    rcases List.mem_cons.mp hc with heq | hmem
    · subst heq
      rw [if_neg hns]
      exact ⟨c, List.mem_cons_self c _, rfl⟩
    · by_cases h : a.id ∈ seen
      · rw [if_pos h]
        exact ih seen c hmem hns
      · rw [if_neg h]
        by_cases hca : c.id = a.id
        · exact ⟨a, List.mem_cons_self a _, hca.symm⟩
        · obtain ⟨c', hc', hid⟩ := ih (seen ++ [a.id]) c hmem (by
            intro habs
            rcases List.mem_append.mp habs with h1 | h2
            · exact hns h1
            · exact hca (by simpa using h2))
          exact ⟨c', List.mem_cons_of_mem a hc', hid⟩

theorem bomInvariant_nil : bomInvariant [] := by
  constructor
  · intro i hi
    simp at hi
  · simp

theorem bomInvariant_preserved (items : List ServiceItem) (itemId : String) (q : Rat)
    (h : bomInvariant items) : bomInvariant (handleItemQuantityChange items itemId q) := by
  obtain ⟨hq, hnd⟩ := h
  unfold handleItemQuantityChange
  split
  · by_cases hp : 0 < q
    · rw [if_pos hp]
      constructor
      · intro i' hi'
        rcases List.mem_map.mp hi' with ⟨i, hi, hgi⟩
        subst hgi
        by_cases hid : (i.inventoryItemId == itemId) = true
        · rw [if_pos hid]
          exact ne_of_gt hp
        · rw [if_neg hid]
          exact hq i hi
      · have hmap : (items.map fun i =>
            if i.inventoryItemId == itemId then { i with quantity := q } else i).map
              (fun i => i.inventoryItemId) = items.map fun i => i.inventoryItemId := by
          rw [List.map_map]
          apply List.map_congr_left
          intro i _
          show (if i.inventoryItemId == itemId then
              { i with quantity := q } else i).inventoryItemId = i.inventoryItemId
          split
          · rfl
          · rfl
        rw [hmap]
        exact hnd
    · rw [if_neg hp]
      constructor
      · intro i hi
        exact hq i (List.mem_of_mem_filter hi)
      · exact List.Nodup.sublist ((List.filter_sublist items).map _) hnd
  · rename_i hfind
    by_cases hp : 0 < q
    · rw [if_pos hp]
      have hnotmem : itemId ∉ items.map fun i => i.inventoryItemId := by
        intro hmem
        rcases List.mem_map.mp hmem with ⟨i, hi, hid⟩
        have hni := List.find?_eq_none.mp hfind i hi
        simp [hid] at hni
      constructor
      · intro i hi
        rcases List.mem_append.mp hi with h1 | h2
        · exact hq i h1
        · have hi2 : i = { inventoryItemId := itemId, quantity := q } := by simpa using h2
          subst hi2
          exact ne_of_gt hp
      · rw [List.map_append]
        rw [List.nodup_append]
        refine ⟨hnd, by simp, ?_⟩
        intro a ha hb
        simp only [List.map_cons, List.map_nil, List.mem_singleton] at hb
        subst hb
        exact hnotmem ha
    · rw [if_neg hp]
      exact ⟨hq, hnd⟩

theorem bomInvariant_foldl (edits : List (String × Rat)) :
    ∀ acc, bomInvariant acc →
      bomInvariant (edits.foldl (fun acc e => handleItemQuantityChange acc e.1 e.2) acc) := by
  induction edits with
  | nil =>
    intro acc h
    simpa using h
  | cons e rest ih =>
    intro acc h
    simp only [List.foldl_cons]
    exact ih _ (bomInvariant_preserved acc e.1 e.2 h)

/-! ### Claim theorems -/

/-- Claim C3: for every invoice, the computed subtotal equals the sum
over its items of quantity × unitPrice, and the displayed total of the
preview equals that subtotal (no discounts or taxes at this layer). -/
theorem claim_invoice_totals (items : List InvoiceItem) (inv : Invoice) :
    subtotal items = (items.map fun item => item.quantity * item.unitPrice).sum
    ∧ previewTotal inv = subtotal inv.items := by
  constructor
  · have h := foldl_add_map_sum (fun item : InvoiceItem => item.quantity * item.unitPrice) items 0
    simpa [subtotal] using h
  · rfl

/-- Claim C4: the dashboard aggregation sums quantity × unitPrice over
items of Paid invoices issued in the reference month and year (other
statuses excluded), sums expense amounts over the same month, and the
net profit is their difference, which can be negative.  The last two
conjuncts check the spec scenario: one Paid invoice of total 100 and one
Draft invoice of total 50 in the month yield income 100, and expenses
with no income yield a negative profit. -/
theorem claim_dashboard_aggregation (nowYear nowMonth : Nat) (invoices : List Invoice)
    (expenses : List Expense) :
    monthlyIncome nowYear nowMonth invoices
      = (((invoices.filter fun inv => decide (inv.status = InvoiceStatus.Pagada)).filter
            fun inv => inMonth nowYear nowMonth inv.issueDate).map
          fun inv => (inv.items.map fun item => item.quantity * item.unitPrice).sum).sum
    ∧ monthlyExpenses nowYear nowMonth expenses
      = ((expenses.filter fun e => inMonth nowYear nowMonth e.date).map fun e => e.amount).sum
    ∧ monthlyProfit nowYear nowMonth invoices expenses
      = monthlyIncome nowYear nowMonth invoices - monthlyExpenses nowYear nowMonth expenses
    ∧ monthlyIncome 2024 6 [demoPaidInvoice, demoDraftInvoice] = 100
    ∧ monthlyProfit 2024 6 [] [demoExpense] < 0 := by
  refine ⟨?_, ?_, rfl, ?_, ?_⟩
  · have hitem : ∀ inv : Invoice,
        inv.items.foldl (fun itemSum item => itemSum + item.quantity * item.unitPrice) 0
          = (inv.items.map fun item => item.quantity * item.unitPrice).sum := by
      intro inv
      simpa using foldl_add_map_sum (fun item : InvoiceItem => item.quantity * item.unitPrice)
        inv.items 0
    rw [monthlyIncome, foldl_add_map_sum
      (fun inv : Invoice =>
        inv.items.foldl (fun itemSum item => itemSum + item.quantity * item.unitPrice) 0)]
    simp only [zero_add]
    congr 1
    exact List.map_congr_left fun inv _ => hitem inv
  · have h := foldl_add_map_sum (fun e : Expense => e.amount)
      (expenses.filter fun e => inMonth nowYear nowMonth e.date) 0
    simpa [monthlyExpenses] using h
  · have hfil : (([demoPaidInvoice, demoDraftInvoice].filter
          fun inv => decide (inv.status = InvoiceStatus.Pagada)).filter
        fun inv => inMonth 2024 6 inv.issueDate) = [demoPaidInvoice] := by decide
    rw [monthlyIncome, hfil]
    simp [demoPaidInvoice, demoItem100]
  · have hfil : ([demoExpense].filter fun e => inMonth 2024 6 e.date) = [demoExpense] := by
      decide
    rw [monthlyProfit, monthlyIncome, monthlyExpenses, hfil]
    simp [demoExpense]

/-- Claim C6: the service save handler stores materialsCost as the sum
over bill-of-materials lines of resolved inventory unit price times
quantity, an unresolved inventory reference contributing zero without an
error, and the stored totalPrice is materialsCost plus laborCost. -/
theorem claim_service_costing (inventory : List InventoryItem) (service : Option Service)
    (formData : ServiceFormData) :
    materialsCost inventory formData.items
      = (formData.items.map (serviceItemCost inventory)).sum
    ∧ (serviceFormSubmit inventory service formData).totalPrice
      = (formData.items.map (serviceItemCost inventory)).sum + formData.laborCost
    ∧ (∀ si : ServiceItem, inventory.find? (fun i => i.id == si.inventoryItemId) = none →
        serviceItemCost inventory si = 0) := by
  have h := foldl_add_map_sum (serviceItemCost inventory) formData.items 0
  refine ⟨by simpa [materialsCost] using h, ?_, ?_⟩
  · have hp : (serviceFormSubmit inventory service formData).totalPrice
        = materialsCost inventory formData.items + formData.laborCost := rfl
    rw [hp, materialsCost]
    rw [h]
    ring
  · intro si hnone
    simp [serviceItemCost, hnone]

/-- Witness for C6, checking the spec's concrete scenario: materials
2 × 10 + 1 × 5 with labor 20 price the service at 45, and a dangling
inventory reference contributes zero. -/
theorem claim_service_costing_witness :
    (serviceFormSubmit [demoInventoryA, demoInventoryB] none demoServiceForm).totalPrice = 45
    ∧ serviceItemCost [] { inventoryItemId := "ghost", quantity := 3 } = 0 := by
  constructor
  · have h := (claim_service_costing [demoInventoryA, demoInventoryB] none demoServiceForm).2.1
    rw [h]
    have hf1 : [demoInventoryA, demoInventoryB].find? (fun i => i.id == "a")
        = some demoInventoryA := by decide
    have hf2 : [demoInventoryA, demoInventoryB].find? (fun i => i.id == "b")
        = some demoInventoryB := by decide
    show ([{ inventoryItemId := "a", quantity := 2 },
           { inventoryItemId := "b", quantity := 1 }].map
        (serviceItemCost [demoInventoryA, demoInventoryB])).sum + (20 : Rat) = 45
    simp only [List.map_cons, List.map_nil, serviceItemCost, hf1, hf2]
    norm_num [demoInventoryA, demoInventoryB]
  · exact (claim_service_costing [] none demoServiceForm).2.2
      { inventoryItemId := "ghost", quantity := 3 } rfl

/-- Claim C10 (implicit): adding a stored service through the picker
appends exactly one invoice item with quantity 1, unit price equal to
the service's stored totalPrice, isNewEquipment false, and isMaintenance
set exactly when the lowercased service name contains "mantenimiento";
on a fresh form this single flag decides whether the invoice has a
maintenance-flagged item.  The closed conjuncts evaluate the rule on two
sample names. -/
theorem claim_service_picker_item (newId newItemId today dueDate : String)
    (formData : InvoiceFormData) (service : Service) :
    handleAddService newId formData service
      = { formData with items := formData.items ++
          [{ id := newId, description := service.name, quantity := 1
           , unitPrice := service.totalPrice
           , isMaintenance := some (jsIncludes (jsToLower service.name) "mantenimiento")
           , isNewEquipment := some false }] }
    ∧ ((handleAddService newId (initialInvoiceFormData newItemId today dueDate) service).items.any
          fun item => truthy item.isMaintenance)
        = jsIncludes (jsToLower service.name) "mantenimiento"
    ∧ jsIncludes (jsToLower "Mantenimiento Preventivo") "mantenimiento" = true
    ∧ jsIncludes (jsToLower "Instalación de compresor") "mantenimiento" = false := by
  refine ⟨rfl, ?_, by decide, by decide⟩
  simp [handleAddService, initialInvoiceFormData, truthy]

/-- Claim C9: a newly created invoice receives the number INV- followed
by the collection size plus one, zero-padded to four digits (INV-0001 on
an empty collection); the number and the generated id are assigned at
creation, and the form handler reproduces the stored number verbatim
when an existing invoice is edited and re-saved. -/
theorem claim_invoice_numbering (invoices : List Invoice) (newId : String) (inv : Invoice) :
    (∃ assigned : Invoice,
        handleSaveInvoice none invoices newId inv = invoices ++ [assigned]
        ∧ assigned.invoiceNumber = "INV-" ++ jsPadStart (natToString (invoices.length + 1)) 4 '0'
        ∧ assigned.id = newId)
    ∧ handleSaveInvoice none [] newId inv
        = [{ inv with id := newId, invoiceNumber := "INV-0001" }]
    ∧ (∀ clients orig formData inv',
        invoiceFormSubmit clients (some orig) formData = some inv' →
          inv'.invoiceNumber = orig.invoiceNumber) := by
  refine ⟨⟨{ inv with
      id := newId
      invoiceNumber := "INV-" ++ jsPadStart (natToString (invoices.length + 1)) 4 '0' },
    rfl, rfl, rfl⟩, ?_, ?_⟩
  · have hnum : "INV-" ++ jsPadStart (natToString (List.length ([] : List Invoice) + 1)) 4 '0'
        = "INV-0001" := by decide
    show ([] : List Invoice) ++ [{ inv with
        id := newId
        invoiceNumber :=
          "INV-" ++ jsPadStart (natToString (List.length ([] : List Invoice) + 1)) 4 '0' }]
      = [{ inv with id := newId, invoiceNumber := "INV-0001" }]
    rw [hnum]
    rfl
  · intro clients orig formData inv' h
    unfold invoiceFormSubmit at h
    split at h
    · exact Option.noConfusion h
    · split at h
      · exact Option.noConfusion h
      · simp only [Option.some.injEq] at h
        subst h
        rfl

/-- Witness for C9: the first invoice created over an empty collection is
numbered INV-0001, and re-saving an edited invoice through the form
keeps its stored number. -/
theorem claim_invoice_numbering_witness :
    handleSaveInvoice none [] "n1" demoMaintSaved
      = [{ demoMaintSaved with id := "n1", invoiceNumber := "INV-0001" }]
    ∧ demoEditOrig.invoiceNumber = demoEditOrig.invoiceNumber := by
  constructor
  · exact (claim_invoice_numbering [] "n1" demoMaintSaved).2.1
  · exact (claim_invoice_numbering [] "n1" demoMaintSaved).2.2
      [demoClient] demoEditOrig demoMaintForm demoEditOrig (by decide)

/-- Claim C7: in the bill-of-materials editor, setting an existing
line's quantity to a non-positive value removes the line, setting a
quantity for an absent item inserts a line only when the quantity is
positive, and consequently after any sequence of edits starting from the
empty bill the stored lines have no zero quantity and at most one line
per inventory item. -/
theorem claim_bom_editing (items : List ServiceItem) (itemId : String) (q : Rat) :
    ((items.find? fun i => i.inventoryItemId == itemId).isSome = true → q ≤ 0 →
        handleItemQuantityChange items itemId q
          = items.filter fun i => !(i.inventoryItemId == itemId))
    ∧ ((items.find? fun i => i.inventoryItemId == itemId) = none → 0 < q →
        handleItemQuantityChange items itemId q
          = items ++ [{ inventoryItemId := itemId, quantity := q }])
    ∧ ((items.find? fun i => i.inventoryItemId == itemId) = none → q ≤ 0 →
        handleItemQuantityChange items itemId q = items)
    ∧ (bomInvariant items → bomInvariant (handleItemQuantityChange items itemId q))
    ∧ ∀ edits : List (String × Rat),
        bomInvariant (edits.foldl (fun acc e => handleItemQuantityChange acc e.1 e.2) []) := by
  refine ⟨?_, ?_, ?_, bomInvariant_preserved items itemId q, ?_⟩
  · intro hsome hq0
    obtain ⟨x, hx⟩ := Option.isSome_iff_exists.mp hsome
    unfold handleItemQuantityChange
    rw [hx]
    rw [if_neg (not_lt.mpr hq0)]
  · intro hnone hq
    unfold handleItemQuantityChange
    rw [hnone]
    show (if 0 < q then items ++ [{ inventoryItemId := itemId, quantity := q }] else items)
      = items ++ [{ inventoryItemId := itemId, quantity := q }]
    rw [if_pos hq]
  · intro hnone hq0
    unfold handleItemQuantityChange
    rw [hnone]
    show (if 0 < q then items ++ [{ inventoryItemId := itemId, quantity := q }] else items)
      = items
    rw [if_neg (not_lt.mpr hq0)]
  · intro edits
    exact bomInvariant_foldl edits [] bomInvariant_nil

/-- Witness for C7: zeroing the only line of a concrete bill removes it,
and a fresh insertion with positive quantity satisfies the invariant. -/
theorem claim_bom_editing_witness :
    handleItemQuantityChange [{ inventoryItemId := "a", quantity := 2 }] "a" 0 = []
    ∧ bomInvariant (handleItemQuantityChange [] "a" 3) := by
  constructor
  · have h := (claim_bom_editing [{ inventoryItemId := "a", quantity := 2 }] "a" 0).1
      (by decide) (by decide)
    rw [h]
    decide
  · exact (claim_bom_editing [] "a" 3).2.2.2.1 bomInvariant_nil

/-- Claim C8: when the selected client id does not resolve, the invoice
save handler aborts without reaching `onSave` and the stored collection
is unchanged; when it does resolve, the item list is passed through
exactly as entered, so negative quantities and prices are accepted. -/
theorem claim_unresolved_client (clients : List Client) (invoices : List Invoice)
    (selectedInvoice : Option Invoice) (newId : String) (formData : InvoiceFormData) :
    (clients.find? (fun c => c.id == formData.clientId) = none →
        invoiceFormSubmit clients selectedInvoice formData = none
        ∧ saveInvoiceFlow clients invoices selectedInvoice newId formData = invoices)
    ∧ (∀ inv', invoiceFormSubmit clients selectedInvoice formData = some inv' →
        inv'.items = formData.items) := by
  constructor
  · intro hnone
    have h1 : invoiceFormSubmit clients selectedInvoice formData = none := by
      unfold invoiceFormSubmit
      rw [hnone]
    refine ⟨h1, ?_⟩
    unfold saveInvoiceFlow
    rw [h1]
  · intro inv' h
    unfold invoiceFormSubmit at h
    split at h
    · exact Option.noConfusion h
    · split at h
      · exact Option.noConfusion h
      · simp only [Option.some.injEq] at h
        subst h
        rfl

/-- Witness for C8: a save against an empty client collection leaves the
invoices unchanged, and with a resolvable client an item with negative
quantity and price is stored as entered. -/
theorem claim_unresolved_client_witness :
    saveInvoiceFlow [] [demoPaidInvoice] none "n2" demoMaintForm = [demoPaidInvoice]
    ∧ demoNegSaved.items = demoNegForm.items := by
  constructor
  · exact ((claim_unresolved_client [] [demoPaidInvoice] none "n2" demoMaintForm).1 rfl).2
  · exact (claim_unresolved_client [demoClient] [] none "n2" demoNegForm).2
      demoNegSaved (by decide)

/-- Claim C1: on a save that reaches `onSave`, if any item carries the
maintenance flag the stored nextMaintenanceDate is the issue date with
six added to its month field (date-library normalisation of rollover and
day overflow), serialized as a YYYY-MM-DD string; with no flagged item
the field is unconditionally cleared, so re-saving with the flag off
undoes a previously scheduled date. -/
theorem claim_maintenance_scheduling (clients : List Client) (invoice : Option Invoice)
    (formData : InvoiceFormData) (inv' : Invoice) (d : YMD)
    (hsub : invoiceFormSubmit clients invoice formData = some inv')
    (hdate : parseISODate formData.issueDate = some d) :
    ((formData.items.any fun item => truthy item.isMaintenance) = true →
        inv'.nextMaintenanceDate = some (formatISODate (addMonths d 6)))
    ∧ ((formData.items.any fun item => truthy item.isMaintenance) = false →
        inv'.nextMaintenanceDate = none) := by
  unfold invoiceFormSubmit at hsub
  split at hsub
  · exact Option.noConfusion hsub
  · split at hsub
    · exact Option.noConfusion hsub
    · rename_i nextM hnm
      simp only [Option.some.injEq] at hsub
      subst hsub
      constructor
      · intro hany
        rw [hany] at hnm
        simp only [deriveNextMaintenance, hdate, if_true] at hnm
        simp only [Option.some.injEq] at hnm
        exact hnm.symm
      · intro hany
        rw [hany] at hnm
        simp only [deriveNextMaintenance, Bool.false_eq_true, if_false] at hnm
        simp only [Option.some.injEq] at hnm
        exact hnm.symm

/-- Witness for C1: with a Comercial client resolved, an invoice issued
2024-08-31 containing a maintenance item is saved with
nextMaintenanceDate 2025-03-03 (August + 6 months lands on February 31,
which the date normalisation rolls to March 3). -/
theorem claim_maintenance_scheduling_witness :
    invoiceFormSubmit [demoClient] none demoMaintForm = some demoMaintSaved
    ∧ demoMaintSaved.nextMaintenanceDate = some (formatISODate (addMonths ⟨2024, 8, 31⟩ 6))
    ∧ formatISODate (addMonths ⟨2024, 8, 31⟩ 6) = "2025-03-03" := by
  refine ⟨by decide, ?_, by decide⟩
  exact (claim_maintenance_scheduling [demoClient] none demoMaintForm demoMaintSaved
    ⟨2024, 8, 31⟩ (by decide) (by decide)).1 (by decide)

/-- Claim C2: on a save with a resolvable client and an item flagged as
new equipment, the stored notes are the derived notes; the derived notes
textually contain the warranty sentence and the maintenance
recommendation; the user's pre-existing free text survives as a prefix;
when neither sentence is already contained in (the growing) notes and
the notes are nonempty, both fixed sentences are appended in order, each
separated by a blank line; the derivation is idempotent, so a second
save adds nothing; and the recommendation's interval is 3 months for a
Comercial client and 6 months for a Residencial one. -/
theorem claim_note_injection (clients : List Client) (invoice : Option Invoice)
    (formData : InvoiceFormData) (client : Client)
    (hfind : clients.find? (fun c => c.id == formData.clientId) = some client)
    (hne : (formData.items.any fun item => truthy item.isNewEquipment) = true) :
    (∀ inv', invoiceFormSubmit clients invoice formData = some inv' →
        inv'.notes = some (deriveNotes client true ((formData.notes).getD "")))
    ∧ jsIncludes (deriveNotes client true ((formData.notes).getD "")) warrantyText = true
    ∧ jsIncludes (deriveNotes client true ((formData.notes).getD ""))
        (maintenanceText client) = true
    ∧ (∃ suffix0,
        deriveNotes client true ((formData.notes).getD "")
          = (formData.notes).getD "" ++ suffix0)
    ∧ (∀ n0 : String, n0 ≠ "" → jsIncludes n0 warrantyText = false →
        jsIncludes (n0 ++ "\n\n" ++ warrantyText) (maintenanceText client) = false →
        deriveNotes client true n0
          = n0 ++ "\n\n" ++ warrantyText ++ "\n\n" ++ maintenanceText client)
    ∧ (∀ n0 : String,
        deriveNotes client true (deriveNotes client true n0) = deriveNotes client true n0)
    ∧ (client.type = ClientType.Comercial →
        jsIncludes (maintenanceText client) "3 meses" = true)
    ∧ (client.type = ClientType.Residencial →
        jsIncludes (maintenanceText client) "6 meses" = true) := by
  refine ⟨?_, deriveNotes_contains_w client _, deriveNotes_contains_mt client _,
    deriveNotes_keeps_user_text client true _, deriveNotes_append_both client,
    deriveNotes_idem client true, ?_, ?_⟩
  · intro inv' h
    unfold invoiceFormSubmit at h
    split at h
    · exact Option.noConfusion h
    · rename_i client2 hfind2
      have hcc : client2 = client := by
        have h12 := hfind2.symm.trans hfind
        exact Option.some.inj h12
      subst hcc
      split at h
      · exact Option.noConfusion h
      · simp only [Option.some.injEq] at h
        subst h
        show some (deriveNotes client2 (formData.items.any fun item => truthy item.isNewEquipment)
            ((formData.notes).getD "")) = _
        rw [hne]
  · intro htype
    unfold maintenanceText
    rw [htype]
    decide
  · intro htype
    unfold maintenanceText
    rw [htype]
    decide

/-- Witness for C2: a Comercial client, one new-equipment item and the
pre-existing note "Nota": the saved notes are the note followed by the
warranty sentence and the 3-month recommendation, each after a blank
line; they contain "3 meses". -/
theorem claim_note_injection_witness :
    deriveNotes demoClient true "Nota"
      = "Nota" ++ "\n\n" ++ warrantyText ++ "\n\n" ++ maintenanceText demoClient
    ∧ jsIncludes (maintenanceText demoClient) "3 meses" = true := by
  have h := claim_note_injection [demoClient] none demoNewEquipForm demoClient
    (by decide) (by decide)
  constructor
  · exact h.2.2.2.2.1 "Nota" (by decide) (by decide) (by decide)
  · exact h.2.2.2.2.2.2.1 rfl

/-- Claim C5: the upcoming-maintenance output is the list of clients
resolved from invoices whose stored nextMaintenanceDate falls within
[now, now + 15 days], both bounds inclusive, de-duplicated by client id:
the result has pairwise-distinct ids, is a subsequence of the resolved
qualifying list (so order is first-occurrence scan order), covers every
qualifying client's id, and each output entry is the first qualifying
occurrence of its id — so a client referenced by two qualifying invoices
appears exactly once. -/
theorem claim_upcoming_maintenance (nowMs : Int) (clients : List Client)
    (invoices : List Invoice) :
    ((upcomingMaintenance nowMs clients invoices).map fun c => c.id).Nodup
    ∧ (upcomingMaintenance nowMs clients invoices).Sublist
        (qualifyingClients nowMs clients invoices)
    ∧ (∀ c ∈ qualifyingClients nowMs clients invoices,
        ∃ c' ∈ upcomingMaintenance nowMs clients invoices, c'.id = c.id)
    ∧ (∀ c' ∈ upcomingMaintenance nowMs clients invoices,
        (qualifyingClients nowMs clients invoices).find? (fun c => c.id == c'.id) = some c')
    ∧ (∀ inv : Invoice, maintenanceDue nowMs inv = true ↔
        ∃ s t, inv.nextMaintenanceDate = some s ∧ dateStringMs s = some t
          ∧ nowMs ≤ t ∧ t ≤ nowMs + fifteenDaysMs) := by
  have he : upcomingMaintenance nowMs clients invoices
      = dedupAux [] (qualifyingClients nowMs clients invoices) := by
    rw [upcomingMaintenance, dedupById_eq_aux]
  refine ⟨?_, ?_, ?_, ?_, ?_⟩
  · rw [he]
    exact dedupAux_nodup _ []
  · rw [he]
    exact dedupAux_sublist _ []
  · intro c hc
    rw [he]
    exact dedupAux_cover _ [] c hc (by simp)
  · intro c' hc'
    rw [he] at hc'
    exact (dedupAux_find _ [] c' hc').2
  · intro inv
    cases hnm : inv.nextMaintenanceDate with
    | none =>
      simp [maintenanceDue, hnm]
    | some s =>
      cases hms : dateStringMs s with
      | none =>
        simp [maintenanceDue, hnm, hms]
      | some t =>
        simp only [maintenanceDue, hnm, hms, Bool.and_eq_true, decide_eq_true_eq,
          Option.some.injEq]
        constructor
        · rintro ⟨h1, h2⟩
          exact ⟨s, t, rfl, hms, h2, h1⟩
        · rintro ⟨s', t', hs', ht', hge, hle⟩
          subst hs'
          rw [hms] at ht'
          have ht : t = t' := Option.some.inj ht'
          subst ht
          exact ⟨hle, hge⟩

/-- Witness for C5: one client referenced by two invoices whose
maintenance dates (June 10 and June 14) both fall within 15 days of
June 1 appears exactly once, as the first qualifying occurrence. -/
theorem claim_upcoming_maintenance_witness :
    upcomingMaintenance demoNowMs [demoClient] [demoMaintInvoiceA, demoMaintInvoiceB]
      = [demoClient]
    ∧ (qualifyingClients demoNowMs [demoClient] [demoMaintInvoiceA, demoMaintInvoiceB]).find?
        (fun c => c.id == demoClient.id) = some demoClient := by
  constructor
  · decide
  · exact (claim_upcoming_maintenance demoNowMs [demoClient]
      [demoMaintInvoiceA, demoMaintInvoiceB]).2.2.2.1 demoClient (by decide)
